import Mathlib

/-!
# Verification of the `Scaler` running-statistics aggregator

Shallow embedding of `src/pat_coady/utils.py` (class `Scaler`): an online
aggregator that maintains a per-dimension running mean and population
variance over streamed batches of observation vectors, merged with the
pooled second-moment identity, plus the scale/offset read-out
`scale = 1 / (sqrt(var) + 0.1) / 3`, `offset = mean`.

Numeric model: batch entries and the aggregator's `means`/`vars` are
rationals (`ℚ`), modelling the exact real-arithmetic behaviour of the
floating-point source; the read-out, which takes a square root, lands in
`ℝ`.  A batch is a `List (List ℚ)` of rows; `np.mean(x, axis=0)` /
`np.var(x, axis=0)` become `npMean` / `npVar` below.
-/

/-- Arithmetic mean of a list of rationals (`np.mean` on one axis).
For the empty list this is `0 / 0 = 0` in `ℚ`. -/
def mean1 (l : List ℚ) : ℚ := l.sum / l.length

/-- Population variance of a list of rationals (`np.var` on one axis):
the mean of the squared deviations from the mean. -/
def var1 (l : List ℚ) : ℚ := mean1 (l.map (fun v => (v - mean1 l) ^ 2))

/-- Sum of squares of a list, an auxiliary raw second moment. -/
def sq_sum (l : List ℚ) : ℚ := (l.map (fun v => v ^ 2)).sum

/-- Column `j` of a batch: the `j`-th entry of every row
(out-of-range entries default to `0`; well-formed batches never hit the
default). -/
def colj (x : List (List ℚ)) (j : Nat) : List ℚ := x.map (fun r => r.getD j 0)

/-- `np.mean(x, axis=0)` for a batch whose rows have width `d`. -/
def npMean (d : Nat) (x : List (List ℚ)) : List ℚ :=
  (List.range d).map (fun j => mean1 (colj x j))

/-- `np.var(x, axis=0)` for a batch whose rows have width `d`. -/
def npVar (d : Nat) (x : List (List ℚ)) : List ℚ :=
  (List.range d).map (fun j => var1 (colj x j))

/-- `x.shape[1]`: the row width of a batch, read off its first row. -/
def width (x : List (List ℚ)) : Nat := (x.headD []).length

/-- State of the aggregator: the mutable fields of the Python `Scaler`
object (`self.vars`, `self.means`, `self.m`, `self.n`, `self.first_pass`).
`n` is set to `0` in `__init__` and never used afterwards, kept for
faithfulness. -/
structure Scaler where
  vars : List ℚ
  means : List ℚ
  m : Nat
  n : Nat
  first_pass : Bool
  deriving DecidableEq, Repr

/-- `Scaler.__init__(obs_dim)`: zero vectors of length `obs_dim`, zero
count, first-pass flag set. -/
def Scaler.init (obs_dim : Nat) : Scaler :=
  { vars := List.replicate obs_dim 0
  , means := List.replicate obs_dim 0
  , m := 0
  , n := 0
  , first_pass := true }

/-- `Scaler.update(x)`: on the first pass, take the batch's own mean and
population variance; afterwards merge by the pooled second-moment
identity and clamp each variance at `0` (`np.maximum(0.0, self.vars)`).
Elementwise numpy operations become `List.zipWith` / `List.map`. -/
def Scaler.update (s : Scaler) (x : List (List ℚ)) : Scaler :=
  if s.first_pass then
    { s with
      means := npMean (width x) x
      vars := npVar (width x) x
      m := x.length
      first_pass := false }
  else
    let n := x.length
    let new_data_var := npVar (width x) x
    let new_data_mean := npMean (width x) x
    let new_data_mean_sq := new_data_mean.map (fun v => v ^ 2)
    let new_means := List.zipWith
      (fun mu nd => (mu * (s.m : ℚ) + nd * (n : ℚ)) / ((s.m : ℚ) + (n : ℚ)))
      s.means new_data_mean
    let t_old := List.zipWith (fun v mu => (s.m : ℚ) * (v + mu ^ 2)) s.vars s.means
    let t_new := List.zipWith (fun v msq => (n : ℚ) * (v + msq)) new_data_var new_data_mean_sq
    let pooled := List.zipWith (fun a b => (a + b) / ((s.m : ℚ) + (n : ℚ))) t_old t_new
    let vars' := List.zipWith (fun p mu => p - mu ^ 2) pooled new_means
    { s with
      means := new_means
      vars := vars'.map (fun v => max 0 v)
      m := s.m + n }

/-- `Scaler.get()`: the pair `(scale, offset)` with
`scale = 1 / (sqrt(vars) + 0.1) / 3` and `offset = means`
(`0.1` is exact here: the model idealises the float literal as `1/10`). -/
noncomputable def Scaler.get (s : Scaler) : List ℝ × List ℚ :=
  (s.vars.map (fun v : ℚ => 1 / (Real.sqrt (v : ℝ) + 1 / 10) / 3), s.means)

/-- State-passing form of the `get` method call: its body is a single
`return` with no assignment to `self`, so the post-state is the pre-state. -/
noncomputable def Scaler.getM (s : Scaler) : (List ℝ × List ℚ) × Scaler :=
  (s.get, s)

/-- Feed a sequence of batches, in order, to a fresh aggregator of
dimension `d`. -/
def runUpdates (d : Nat) (bs : List (List (List ℚ))) : Scaler :=
  bs.foldl Scaler.update (Scaler.init d)

/-- A valid batch for dimension `d`: non-empty, every row of width `d`. -/
def ValidBatch (d : Nat) (b : List (List ℚ)) : Prop :=
  b ≠ [] ∧ ∀ r ∈ b, r.length = d

instance (d : Nat) (b : List (List ℚ)) : Decidable (ValidBatch d b) := by
  unfold ValidBatch; infer_instance

-- Scratch sanity checks (concrete scenario from the spec).
example : ((Scaler.init 2).update [[0, 0], [2, 0]]).means = [1, 0] := by
  norm_num [Scaler.init, Scaler.update, npMean, npVar, mean1, var1, colj, width,
    List.range_succ]
example : ((Scaler.init 2).update [[0, 0], [2, 0]]).vars = [1, 0] := by
  norm_num [Scaler.init, Scaler.update, npMean, npVar, mean1, var1, colj, width,
    List.range_succ]
example :
    (((Scaler.init 2).update [[0, 0], [2, 0]]).update [[4, 0], [6, 0]]).means = [3, 0] := by
  norm_num [Scaler.init, Scaler.update, npMean, npVar, mean1, var1, colj, width,
    List.range_succ]
example :
    (((Scaler.init 2).update [[0, 0], [2, 0]]).update [[4, 0], [6, 0]]).vars = [5, 0] := by
  norm_num [Scaler.init, Scaler.update, npMean, npVar, mean1, var1, colj, width,
    List.range_succ]

/-! ## One-dimensional statistics lemmas -/

theorem length_cast_ne (l : List ℚ) (h : l ≠ []) : (l.length : ℚ) ≠ 0 := by
  exact_mod_cast Nat.pos_iff_ne_zero.mp (List.length_pos.mpr h)

theorem sum_map_sub_sq (c : ℚ) (l : List ℚ) :
    (l.map (fun v => (v - c) ^ 2)).sum
      = sq_sum l - 2 * c * l.sum + l.length * c ^ 2 := by
  induction l with
  | nil => simp [sq_sum]
  | cons a t ih =>
      simp only [List.map_cons, List.sum_cons, sq_sum, List.length_cons] at *
      push_cast
      rw [ih]
      ring

/-- The raw-second-moment form of population variance:
`var = E[x²] − (E[x])²`. -/
theorem var1_eq (l : List ℚ) (h : l ≠ []) :
    var1 l = sq_sum l / l.length - (mean1 l) ^ 2 := by
  have hN : (l.length : ℚ) ≠ 0 := length_cast_ne l h
  unfold var1 mean1
  rw [List.length_map, sum_map_sub_sq]
  field_simp
  ring

/-- Population variance is non-negative: it is a mean of squares. -/
theorem var1_nonneg (l : List ℚ) : 0 ≤ var1 l := by
  unfold var1 mean1
  apply div_nonneg
  · apply List.sum_nonneg
    intro y hy
    obtain ⟨v, _, rfl⟩ := List.mem_map.mp hy
    positivity
  · positivity

/-- Pooled-mean identity for the concatenation of two non-empty lists. -/
theorem mean1_append (l₁ l₂ : List ℚ) (h₁ : l₁ ≠ []) (h₂ : l₂ ≠ []) :
    mean1 (l₁ ++ l₂)
      = (mean1 l₁ * l₁.length + mean1 l₂ * l₂.length) / (l₁.length + l₂.length) := by
  have hN₁ : (l₁.length : ℚ) ≠ 0 := length_cast_ne l₁ h₁
  have hN₂ : (l₂.length : ℚ) ≠ 0 := length_cast_ne l₂ h₂
  unfold mean1
  rw [List.sum_append, List.length_append]
  push_cast
  field_simp

/-- Pooled-variance identity (the second-moment pooling formula used by
`Scaler.update`) for the concatenation of two non-empty lists. -/
theorem var1_append (l₁ l₂ : List ℚ) (h₁ : l₁ ≠ []) (h₂ : l₂ ≠ []) :
    var1 (l₁ ++ l₂)
      = ((l₁.length : ℚ) * (var1 l₁ + (mean1 l₁) ^ 2)
          + (l₂.length : ℚ) * (var1 l₂ + (mean1 l₂) ^ 2)) / (l₁.length + l₂.length)
        - (mean1 (l₁ ++ l₂)) ^ 2 := by
  have hN₁ : (l₁.length : ℚ) ≠ 0 := length_cast_ne l₁ h₁
  have hN₂ : (l₂.length : ℚ) ≠ 0 := length_cast_ne l₂ h₂
  have h₁₂ : l₁ ++ l₂ ≠ [] := by simp [h₁]
  rw [var1_eq _ h₁₂, var1_eq _ h₁, var1_eq _ h₂]
  have hq : sq_sum (l₁ ++ l₂) = sq_sum l₁ + sq_sum l₂ := by
    simp [sq_sum]
  rw [hq, List.length_append]
  push_cast
  field_simp
  ring

/-! ## Vector-level lemmas -/

theorem zipWith_map_same {α β γ δ : Type} (f : β → γ → δ) (g : α → β) (h : α → γ)
    (l : List α) :
    List.zipWith f (l.map g) (l.map h) = l.map (fun x => f (g x) (h x)) := by
  induction l with
  | nil => rfl
  | cons a t ih => simp [ih]

theorem colj_append (x y : List (List ℚ)) (j : Nat) :
    colj (x ++ y) j = colj x j ++ colj y j := by
  simp [colj]

theorem colj_length (x : List (List ℚ)) (j : Nat) : (colj x j).length = x.length := by
  simp [colj]

theorem colj_ne_nil (x : List (List ℚ)) (j : Nat) (h : x ≠ []) : colj x j ≠ [] := by
  simpa [colj] using h

theorem width_eq (d : Nat) (b : List (List ℚ)) (hb : b ≠ [])
    (hr : ∀ r ∈ b, r.length = d) : width b = d := by
  cases b with
  | nil => exact absurd rfl hb
  | cons r t => exact hr r (List.mem_cons_self r t)

theorem update_first (s : Scaler) (b : List (List ℚ)) (hfp : s.first_pass = true) :
    s.update b = { s with
      means := npMean (width b) b
      vars := npVar (width b) b
      m := b.length
      first_pass := false } := by
  simp [Scaler.update, hfp]

theorem update_merge (d : Nat) (ys b : List (List ℚ)) (s : Scaler)
    (hys : ys ≠ []) (hb : b ≠ []) (hw : width b = d)
    (hm : s.m = ys.length) (hmeans : s.means = npMean d ys) (hvars : s.vars = npVar d ys)
    (hfp : s.first_pass = false) :
    (s.update b).means = npMean d (ys ++ b)
    ∧ (s.update b).vars = npVar d (ys ++ b)
    ∧ (s.update b).m = (ys ++ b).length := by
  have hcy : ∀ j : Nat, colj ys j ≠ [] := fun j => colj_ne_nil ys j hys
  have hcb : ∀ j : Nat, colj b j ≠ [] := fun j => colj_ne_nil b j hb
  simp only [Scaler.update, hfp, Bool.false_eq_true, if_false, hw, hm, hmeans, hvars,
    npMean, npVar, List.map_map, zipWith_map_same]
  refine ⟨?_, ?_, ?_⟩
  · apply List.map_congr_left
    intro j hj
    rw [colj_append, mean1_append _ _ (hcy j) (hcb j), colj_length, colj_length]
  · apply List.map_congr_left
    intro j hj
    simp only [Function.comp_apply]
    have hv := var1_nonneg (colj (ys ++ b) j)
    rw [colj_append, var1_append _ _ (hcy j) (hcb j),
      mean1_append _ _ (hcy j) (hcb j), colj_length, colj_length] at hv
    rw [colj_append, var1_append _ _ (hcy j) (hcb j),
      mean1_append _ _ (hcy j) (hcb j), colj_length, colj_length]
    exact max_eq_right hv
  · simp

theorem flatten_ne_nil (bs : List (List (List ℚ))) (h : bs ≠ [])
    (hne : ∀ b ∈ bs, b ≠ []) : bs.flatten ≠ [] := by
  cases bs with
  | nil => exact absurd rfl h
  | cons b t =>
      have hb : b ≠ [] := hne b (List.mem_cons_self b t)
      simp only [List.flatten_cons, ne_eq, List.append_eq_nil]
      intro hc
      exact hb hc.1

theorem runUpdates_append_one (d : Nat) (bs : List (List (List ℚ))) (b : List (List ℚ)) :
    runUpdates d (bs ++ [b]) = (runUpdates d bs).update b := by
  simp [runUpdates, List.foldl_append]

theorem runUpdates_stats (d : Nat) (bs : List (List (List ℚ))) (hbs : bs ≠ [])
    (hvalid : ∀ b ∈ bs, ValidBatch d b) :
    (runUpdates d bs).means = npMean d bs.flatten
    ∧ (runUpdates d bs).vars = npVar d bs.flatten
    ∧ (runUpdates d bs).m = bs.flatten.length
    ∧ (runUpdates d bs).first_pass = false := by
  induction bs using List.reverseRecOn with
  | nil => exact absurd rfl hbs
  | append_singleton t b ih =>
      have hvb : ValidBatch d b := hvalid b (by simp)
      have hwb : width b = d := width_eq d b hvb.1 hvb.2
      rw [runUpdates_append_one]
      cases t with
      | nil =>
          rw [update_first _ _ (by simp [runUpdates, Scaler.init])]
          simp [hwb, Scaler.init, runUpdates]
      | cons b0 t0 =>
          have hvt : ∀ x ∈ b0 :: t0, ValidBatch d x := by
            intro x hx
            exact hvalid x (List.mem_append_left _ hx)
          obtain ⟨ihm, ihv, ihc, ihf⟩ := ih (by simp) hvt
          have hjoin_ne : (b0 :: t0).flatten ≠ [] :=
            flatten_ne_nil _ (by simp) (fun x hx => (hvt x hx).1)
          have hmerge := update_merge d (b0 :: t0).flatten b (runUpdates d (b0 :: t0))
            hjoin_ne hvb.1 hwb ihc ihm ihv ihf
          have hjj : ((b0 :: t0) ++ [b]).flatten = (b0 :: t0).flatten ++ b := by
            simp
          rw [hjj]
          refine ⟨hmerge.1, hmerge.2.1, hmerge.2.2, ?_⟩
          simp [Scaler.update, ihf]

/-- After any `update` call, every stored variance component is
non-negative: the first pass stores exact population variances, and the
merge pass clamps at zero. -/
theorem update_vars_nonneg (s : Scaler) (x : List (List ℚ)) :
    ∀ v ∈ (s.update x).vars, 0 ≤ v := by
  unfold Scaler.update
  by_cases h : s.first_pass
  · simp only [h, if_true]
    intro v hv
    simp only [npVar, List.map_map, List.mem_map] at hv
    obtain ⟨j, -, rfl⟩ := hv
    exact var1_nonneg _
  · simp only [h, if_false, Bool.false_eq_true]
    intro v hv
    simp only [List.mem_map] at hv
    obtain ⟨w, -, rfl⟩ := hv
    exact le_max_left 0 w

theorem getD_map (f : ℚ → ℝ) (l : List ℚ) (i : Nat) (h : i < l.length) :
    (l.map f).getD i 0 = f (l.getD i 0) := by
  induction l generalizing i with
  | nil => simp at h
  | cons a t ih =>
      cases i with
      | zero => simp
      | succ k =>
          simp only [List.map_cons, List.getD_cons_succ]
          exact ih k (by simpa using h)

theorem mean1_replicate (n : Nat) (c : ℚ) (h : n ≠ 0) :
    mean1 (List.replicate n c) = c := by
  have hn : (n : ℚ) ≠ 0 := Nat.cast_ne_zero.mpr h
  simp [mean1, List.sum_replicate, nsmul_eq_mul]
  field_simp

theorem var1_replicate (n : Nat) (c : ℚ) (h : n ≠ 0) :
    var1 (List.replicate n c) = 0 := by
  unfold var1
  rw [mean1_replicate n c h, List.map_replicate]
  simp [mean1]

/-! ## Claims -/

/-- Claim C1 — merge correctness: feeding any non-empty sequence of valid
batches to `update`, in order, yields exactly the per-dimension population
mean and population variance of the concatenation of all batches (exact
rational arithmetic models the real-arithmetic statement). -/
theorem scaler_merge_correctness (d : Nat) (bs : List (List (List ℚ)))
    (hbs : bs ≠ []) (hvalid : ∀ b ∈ bs, ValidBatch d b) :
    (runUpdates d bs).means = npMean d bs.flatten
    ∧ (runUpdates d bs).vars = npVar d bs.flatten := by
  obtain ⟨h1, h2, -, -⟩ := runUpdates_stats d bs hbs hvalid
  exact ⟨h1, h2⟩

/-- Witness for C1: the spec's concrete scenario at dimension 2 — after
`update [[0,0],[2,0]]` and `update [[4,0],[6,0]]` the mean is `[3,0]` and
the variance `[5,0]` (the population statistics of `{0,2,4,6}`). -/
theorem scaler_merge_correctness_witness :
    (runUpdates 2 [[[0, 0], [2, 0]], [[4, 0], [6, 0]]]).means = [3, 0]
    ∧ (runUpdates 2 [[[0, 0], [2, 0]], [[4, 0], [6, 0]]]).vars = [5, 0] := by
  have h := scaler_merge_correctness 2 [[[0, 0], [2, 0]], [[4, 0], [6, 0]]]
    (by decide) (by decide)
  rw [h.1, h.2]
  constructor <;>
    norm_num [npMean, npVar, mean1, var1, colj, List.range_succ]

/-- Claim C3 — length invariant: after construction and after any
sequence of valid updates, `means` and `vars` both have length exactly
`dimension`. -/
theorem scaler_length_invariant (d : Nat) (bs : List (List (List ℚ)))
    (hvalid : ∀ b ∈ bs, ValidBatch d b) :
    (runUpdates d bs).means.length = d ∧ (runUpdates d bs).vars.length = d := by
  cases bs with
  | nil => simp [runUpdates, Scaler.init]
  | cons b t =>
      obtain ⟨h1, h2, -, -⟩ := runUpdates_stats d (b :: t) (by simp) hvalid
      rw [h1, h2]
      simp [npMean, npVar]

/-- Witness for C3 at dimension 2 with one batch. -/
theorem scaler_length_invariant_witness :
    (∀ b ∈ ([[[1, 2], [3, 4]]] : List (List (List ℚ))), ValidBatch 2 b)
    ∧ (runUpdates 2 [[[1, 2], [3, 4]]]).means.length = 2
    ∧ (runUpdates 2 [[[1, 2], [3, 4]]]).vars.length = 2 := by
  have h := scaler_length_invariant 2 [[[1, 2], [3, 4]]] (by decide)
  exact ⟨by decide, h.1, h.2⟩

/-- Claim C4 — variance non-negativity: after any sequence of valid
updates (including the first call, whose branch has no clamp), every
stored variance component is non-negative. -/
theorem scaler_vars_nonneg (d : Nat) (bs : List (List (List ℚ)))
    (hvalid : ∀ b ∈ bs, ValidBatch d b) :
    ∀ v ∈ (runUpdates d bs).vars, 0 ≤ v := by
  induction bs using List.reverseRecOn with
  | nil =>
      intro v hv
      simp only [runUpdates, List.foldl_nil, Scaler.init, List.mem_replicate] at hv
      exact hv.2.ge
  | append_singleton t b ih =>
      rw [runUpdates_append_one]
      exact update_vars_nonneg _ b

/-- Witness for C4 after one update at dimension 1. -/
theorem scaler_vars_nonneg_witness :
    (∀ b ∈ ([[[2], [4]]] : List (List (List ℚ))), ValidBatch 1 b)
    ∧ ∀ v ∈ (runUpdates 1 [[[2], [4]]]).vars, 0 ≤ v :=
  ⟨by decide, scaler_vars_nonneg 1 [[[2], [4]]] (by decide)⟩

/-- Claim C5 — first-batch initialization: the very first `update` with a
valid batch skips the merge arithmetic: `means`/`vars` become the batch's
own per-dimension mean and population variance, the count becomes the
number of rows, and the first-pass flag is cleared. -/
theorem scaler_first_batch (d : Nat) (b : List (List ℚ)) (hv : ValidBatch d b) :
    ((Scaler.init d).update b).means = npMean d b
    ∧ ((Scaler.init d).update b).vars = npVar d b
    ∧ ((Scaler.init d).update b).m = b.length
    ∧ ((Scaler.init d).update b).first_pass = false := by
  have hw : width b = d := width_eq d b hv.1 hv.2
  rw [update_first _ _ rfl, hw]
  exact ⟨rfl, rfl, rfl, rfl⟩

/-- Witness for C5 with a one-row batch at dimension 1. -/
theorem scaler_first_batch_witness :
    ValidBatch 1 [[5]]
    ∧ ((Scaler.init 1).update [[5]]).means = npMean 1 [[5]]
    ∧ ((Scaler.init 1).update [[5]]).vars = npVar 1 [[5]]
    ∧ ((Scaler.init 1).update [[5]]).m = 1
    ∧ ((Scaler.init 1).update [[5]]).first_pass = false := by
  have h := scaler_first_batch 1 [[5]] (by decide)
  exact ⟨by decide, h.1, h.2.1, h.2.2.1, h.2.2.2⟩

/-- Claim C6 — read-out formula: `get` returns the pair `(scale, offset)`
with `offset = means` and, in every dimension `i`,
`scale[i] = 1 / (sqrt(vars[i]) + 0.1) / 3` (the float literal `0.1`
idealised as `1/10`). -/
theorem scaler_readout_formula (s : Scaler) (i : Nat) (h : i < s.vars.length) :
    (s.get).2 = s.means
    ∧ (s.get).1.getD i 0
        = 1 / (Real.sqrt ((s.vars.getD i 0 : ℚ) : ℝ) + 1 / 10) / 3 := by
  refine ⟨rfl, ?_⟩
  simp only [Scaler.get]
  exact getD_map _ s.vars i h

/-- Witness for C6 at the freshly constructed one-dimensional state. -/
theorem scaler_readout_formula_witness :
    0 < (Scaler.init 1).vars.length
    ∧ ((Scaler.init 1).get).2 = (Scaler.init 1).means
    ∧ ((Scaler.init 1).get).1.getD 0 0
        = 1 / (Real.sqrt (((Scaler.init 1).vars.getD 0 0 : ℚ) : ℝ) + 1 / 10) / 3 := by
  have h := scaler_readout_formula (Scaler.init 1) 0 (by decide)
  exact ⟨by decide, h.1, h.2⟩

/-- Claim C7 — zero-variance read-out: `get` is callable before any
update, returning the all-zero offset and scale `1 / 0.1 / 3` in every
dimension; and after exactly one update with a batch of identical rows,
every variance is `0` and every scale component is `1 / 0.1 / 3`. -/
theorem scaler_zero_variance_readout (d : Nat) :
    (Scaler.init d).get
      = (List.replicate d (1 / (1 / 10) / 3 : ℝ), List.replicate d (0 : ℚ))
    ∧ ∀ (r : List ℚ) (n : Nat), 1 ≤ n → r.length = d →
        ((Scaler.init d).update (List.replicate n r)).vars = List.replicate d 0
        ∧ (((Scaler.init d).update (List.replicate n r)).get).1
            = List.replicate d (1 / (1 / 10) / 3 : ℝ) := by
  have hscale : ∀ l : List ℚ, l = List.replicate d 0 →
      (l.map (fun v : ℚ => 1 / (Real.sqrt (v : ℝ) + 1 / 10) / 3))
        = List.replicate d (1 / (1 / 10) / 3 : ℝ) := by
    intro l hl
    rw [hl, List.map_replicate]
    simp
  constructor
  · unfold Scaler.get Scaler.init
    refine Prod.ext ?_ rfl
    exact hscale _ rfl
  · intro r n hn hr
    have hnz : n ≠ 0 := Nat.one_le_iff_ne_zero.mp hn
    have hw : width (List.replicate n r) = d := by
      cases n with
      | zero => exact absurd rfl hnz
      | succ k => simpa [width, List.replicate_succ] using hr
    have hvars : ((Scaler.init d).update (List.replicate n r)).vars
        = List.replicate d 0 := by
      rw [update_first _ _ rfl, hw]
      show npVar d (List.replicate n r) = List.replicate d 0
      have hcol : ∀ j : Nat, colj (List.replicate n r) j
          = List.replicate n (r.getD j 0) := by
        intro j
        simp [colj, List.map_replicate]
      unfold npVar
      rw [List.eq_replicate_iff]
      refine ⟨by simp, ?_⟩
      intro v hv
      obtain ⟨j, -, rfl⟩ := List.mem_map.mp hv
      rw [hcol j, var1_replicate n _ hnz]
    refine ⟨hvars, ?_⟩
    show (((Scaler.init d).update (List.replicate n r)).vars.map
        (fun v : ℚ => 1 / (Real.sqrt (v : ℝ) + 1 / 10) / 3))
      = List.replicate d (1 / (1 / 10) / 3 : ℝ)
    exact hscale _ hvars

/-- Witness for C7: dimension 2, three identical rows `[5, 7]`. -/
theorem scaler_zero_variance_readout_witness :
    1 ≤ 3 ∧ ([5, 7] : List ℚ).length = 2
    ∧ ((Scaler.init 2).update (List.replicate 3 [5, 7])).vars = List.replicate 2 0
    ∧ (((Scaler.init 2).update (List.replicate 3 [5, 7])).get).1
        = List.replicate 2 (1 / (1 / 10) / 3 : ℝ) := by
  have h := (scaler_zero_variance_readout 2).2 [5, 7] 3 (by decide) (by decide)
  exact ⟨by decide, by decide, h.1, h.2⟩

/-- Claim C8 — read-out purity and idempotence: a `get` call leaves the
state unchanged, and a second call on the resulting state returns the
same value. -/
theorem scaler_readout_pure (s : Scaler) :
    (s.getM).2 = s ∧ (((s.getM).2.getM)).1 = (s.getM).1 :=
  ⟨rfl, rfl⟩

/-- Claim C9 — count accounting: the count starts at `0`, is always
non-negative, equals the total number of rows absorbed across all valid
batches, grows by exactly the batch size on each further update, and is
`0` exactly when the first-pass flag is still set. -/
theorem scaler_count_accounting (d : Nat) (bs : List (List (List ℚ)))
    (hvalid : ∀ b ∈ bs, ValidBatch d b) :
    (Scaler.init d).m = 0
    ∧ 0 ≤ (runUpdates d bs).m
    ∧ (runUpdates d bs).m = (bs.map List.length).sum
    ∧ (∀ b : List (List ℚ), (runUpdates d (bs ++ [b])).m = (runUpdates d bs).m + b.length)
    ∧ ((runUpdates d bs).m = 0 ↔ (runUpdates d bs).first_pass = true) := by
  have hsum : (runUpdates d bs).m = (bs.map List.length).sum := by
    cases bs with
    | nil => simp [runUpdates, Scaler.init]
    | cons b t =>
        obtain ⟨-, -, hc, -⟩ := runUpdates_stats d (b :: t) (by simp) hvalid
        rw [hc, List.length_flatten]
  refine ⟨rfl, Nat.zero_le _, hsum, ?_, ?_⟩
  · intro b
    rw [runUpdates_append_one]
    cases bs with
    | nil => simp [runUpdates, Scaler.update, Scaler.init]
    | cons b0 t0 =>
        obtain ⟨-, -, -, hf⟩ := runUpdates_stats d (b0 :: t0) (by simp) hvalid
        simp [Scaler.update, hf]
  · cases bs with
    | nil => simp [runUpdates, Scaler.init]
    | cons b0 t0 =>
        obtain ⟨-, -, -, hf⟩ := runUpdates_stats d (b0 :: t0) (by simp) hvalid
        rw [hsum, hf]
        have hb0 : b0 ≠ [] := (hvalid b0 (List.mem_cons_self b0 t0)).1
        have : 0 < b0.length := List.length_pos.mpr hb0
        simp only [List.map_cons, List.sum_cons]
        constructor
        · intro hc
          omega
        · intro hc
          exact absurd hc (by simp)

/-- Witness for C9 with one single-row batch at dimension 1, extended by
a further one-row batch. -/
theorem scaler_count_accounting_witness :
    (∀ b ∈ ([[[3]]] : List (List (List ℚ))), ValidBatch 1 b)
    ∧ (Scaler.init 1).m = 0
    ∧ 0 ≤ (runUpdates 1 [[[3]]]).m
    ∧ (runUpdates 1 [[[3]]]).m = (([[[3]]] : List (List (List ℚ))).map List.length).sum
    ∧ (runUpdates 1 ([[[3]]] ++ [[[7]]])).m = (runUpdates 1 [[[3]]]).m + [[7]].length
    ∧ ((runUpdates 1 [[[3]]]).m = 0 ↔ (runUpdates 1 [[[3]]]).first_pass = true) := by
  have h := scaler_count_accounting 1 [[[3]]] (by decide)
  exact ⟨by decide, h.1, h.2.1, h.2.2.1, h.2.2.2.1 [[7]], h.2.2.2.2⟩

/-- Claim C10 — scale positivity and upper bound: whenever every stored
variance is non-negative (as in every reachable state), every scale
component returned by `get` is strictly positive and at most
`1 / 0.1 / 3 = 10/3`; in particular the read-out never divides by zero. -/
theorem scaler_scale_bounds (s : Scaler) (_hnn : ∀ v ∈ s.vars, 0 ≤ v) :
    ∀ y ∈ (s.get).1, 0 < y ∧ y ≤ 1 / (1 / 10) / 3 := by
  intro y hy
  simp only [Scaler.get, List.mem_map] at hy
  obtain ⟨v, hv, rfl⟩ := hy
  have h0 : (0 : ℝ) ≤ Real.sqrt (v : ℝ) := Real.sqrt_nonneg _
  have hpos : (0 : ℝ) < Real.sqrt (v : ℝ) + 1 / 10 := by linarith
  constructor
  · positivity
  · have hkey : 1 / (Real.sqrt (v : ℝ) + 1 / 10) ≤ 10 := by
      rw [div_le_iff₀ hpos]
      linarith
    have h3 : (0 : ℝ) < 3 := by norm_num
    calc 1 / (Real.sqrt (v : ℝ) + 1 / 10) / 3 ≤ 10 / 3 :=
          (div_le_div_iff_of_pos_right h3).mpr hkey
      _ = 1 / (1 / 10) / 3 := by norm_num

/-- Witness for C10 at the freshly constructed two-dimensional state. -/
theorem scaler_scale_bounds_witness :
    (∀ v ∈ (Scaler.init 2).vars, 0 ≤ v)
    ∧ ∀ y ∈ ((Scaler.init 2).get).1, 0 < y ∧ y ≤ 1 / (1 / 10) / 3 :=
  ⟨by decide, scaler_scale_bounds (Scaler.init 2) (by decide)⟩

/-- Counterexample to C2 as stated: at dimension 2, the non-empty batch
`[[1, 2, 3]]` has row width `3 ≠ 2`, yet `update` raises nothing — the
source performs no validation — and the state changes: the mean vector is
overwritten with the width-3 batch mean and the first-pass flag flips. -/
theorem scaler_no_invalid_input_counterexample :
    ((Scaler.init 2).update [[1, 2, 3]]).means = [1, 2, 3]
    ∧ ((Scaler.init 2).update [[1, 2, 3]]).first_pass = false
    ∧ (Scaler.init 2).first_pass = true := by
  refine ⟨?_, rfl, rfl⟩
  norm_num [Scaler.update, Scaler.init, npMean, mean1, colj, width, List.range_succ]

/-- Claim C2 (amended) — no validation: `update` cannot fail; even a
non-empty batch whose row width differs from the aggregator's dimension
is absorbed without error on the first pass, overwriting `means`/`vars`
with vectors of the batch's own width (breaking the length invariant) and
setting the count to the batch size. -/
theorem scaler_no_validation (d : Nat) (x : List (List ℚ)) (_hne : x ≠ [])
    (hw : width x ≠ d) :
    ((Scaler.init d).update x).means = npMean (width x) x
    ∧ ((Scaler.init d).update x).vars = npVar (width x) x
    ∧ ((Scaler.init d).update x).m = x.length
    ∧ ((Scaler.init d).update x).first_pass = false
    ∧ ((Scaler.init d).update x).means.length ≠ d := by
  rw [update_first _ _ rfl]
  refine ⟨rfl, rfl, rfl, rfl, ?_⟩
  simpa [npMean] using hw

/-- Witness for the amended C2 at dimension 2 with the width-3 batch. -/
theorem scaler_no_validation_witness :
    ([[1, 2, 3]] : List (List ℚ)) ≠ [] ∧ width [[1, 2, 3]] ≠ 2
    ∧ ((Scaler.init 2).update [[1, 2, 3]]).means = npMean (width [[1, 2, 3]]) [[1, 2, 3]]
    ∧ ((Scaler.init 2).update [[1, 2, 3]]).vars = npVar (width [[1, 2, 3]]) [[1, 2, 3]]
    ∧ ((Scaler.init 2).update [[1, 2, 3]]).m = 1
    ∧ ((Scaler.init 2).update [[1, 2, 3]]).first_pass = false
    ∧ ((Scaler.init 2).update [[1, 2, 3]]).means.length ≠ 2 := by
  have h := scaler_no_validation 2 [[1, 2, 3]] (by decide) (by decide)
  exact ⟨by decide, by decide, h.1, h.2.1, h.2.2.1, h.2.2.2.1, h.2.2.2.2⟩
